import Mathlib

/-!
# Verification of the procedural jingle synthesizer (`src/lib/audioSynth.ts`)
and the upstream tempo clamp (`src/lib/gemini.ts`).

Shallow embedding conventions:
* JavaScript `number`s are modelled as `ℚ` (all constants in the source are
  exact decimals, and the claims are about exact structural facts).
* `Math.random()` draws are injected through an oracle (`RandSrc`), one
  function per random draw site, indexed by the loop position (bar, beat,
  chord-voice index) at which the source performs the draw.  A well-formed
  oracle yields draws in `[0, 1)`, as `Math.random` does.
* `Math.sin` and `Math.PI` (used only by the visual waveform preview, whose
  claim does not depend on their values) are passed in as parameters.
* The audio-graph side effects (oscillators, filters, gain ramps) are beyond
  the arrangement data; the claims under scrutiny concern the emitted
  `NoteEvent` / percussion-trigger lists and the session lifecycle, which are
  embedded below.
-/

-- ─── Data model ──────────────────────────────────────────────────────────────

/-- Oscillator waveform kinds (`OscillatorType` in the source). -/
inductive WaveType where
  | sine
  | square
  | sawtooth
  | triangle
  deriving DecidableEq, Repr

/-- A scheduled pitched note (interface `NoteEvent` in `audioSynth.ts`):
start time, frequency, duration, waveform, peak gain, optional detune. -/
structure NoteEvent where
  time : ℚ
  freq : ℚ
  duration : ℚ
  wave : WaveType
  gain : ℚ
  detune : Option ℚ := none
  deriving DecidableEq, Repr

/-- A percussion trigger kind: kick, snare, or hi-hat (open or closed). -/
inductive DrumKind where
  | kick
  | snare
  | hihat (isOpen : Bool)
  deriving DecidableEq, Repr

/-- A percussion trigger: kind plus trigger time in seconds. -/
structure PercussionTrigger where
  kind : DrumKind
  time : ℚ
  deriving DecidableEq, Repr

/-- The resolved musical character returned by `getStyleProfile`. -/
structure StyleProfile where
  scale : List ℚ
  wave : WaveType
  bassWave : WaveType
  reverbAmount : ℚ
  deriving DecidableEq, Repr

-- ─── Frequency table (`NOTE_FREQS`) ──────────────────────────────────────────

/-- `NOTE_FREQS` entries used by the style profiles (Hz, exact decimals). -/
def freqC4 : ℚ := 26163 / 100
def freqD4 : ℚ := 29366 / 100
def freqE4 : ℚ := 32963 / 100
def freqF4 : ℚ := 34923 / 100
def freqG4 : ℚ := 392
def freqA4 : ℚ := 440
def freqB4 : ℚ := 49388 / 100
def freqC5 : ℚ := 52325 / 100

-- ─── Style → scale + character mapping (`getStyleProfile`) ──────────────────

/-- JavaScript `String.prototype.includes`: does `pat` occur as a contiguous
substring of `s`?  Modelled on the character lists of the two strings. -/
def strIncludes (s : List Char) (pat : String) : Bool :=
  (List.range (s.length + 1)).any fun i => (s.drop i).take pat.length == pat.data

/-- The lower-cased concatenation `(style + ' ' + tone).toLowerCase()` that
`getStyleProfile` matches keywords against. -/
def combinedLabel (style tone : String) : List Char :=
  (style ++ " " ++ tone).data.map Char.toLower

/-- The "dark"/"crime"/"serious" profile (first keyword group). -/
def darkProfile : StyleProfile :=
  { scale := [freqC4, freqD4, freqF4, freqG4, freqA4]
    wave := .sawtooth, bassWave := .square, reverbAmount := 6/10 }

/-- The "jazz"/"lo-fi"/"chill" profile (second keyword group). -/
def jazzProfile : StyleProfile :=
  { scale := [freqC4, freqE4, freqG4, freqA4, freqB4]
    wave := .sine, bassWave := .sine, reverbAmount := 7/10 }

/-- The "energetic"/"upbeat"/"pop" profile (third keyword group). -/
def energeticProfile : StyleProfile :=
  { scale := [freqC4, freqD4, freqE4, freqG4, freqA4, freqC5]
    wave := .square, bassWave := .sawtooth, reverbAmount := 3/10 }

/-- The "techno"/"electronic"/"cyber" profile (fourth keyword group). -/
def technoProfile : StyleProfile :=
  { scale := [freqC4, freqD4, freqF4, freqG4, freqA4]
    wave := .sawtooth, bassWave := .sawtooth, reverbAmount := 4/10 }

/-- The default professional/neutral profile (fallback). -/
def defaultProfile : StyleProfile :=
  { scale := [freqC4, freqE4, freqG4, freqA4, freqC5]
    wave := .sine, bassWave := .triangle, reverbAmount := 45/100 }

/-- `getStyleProfile(style, tone)`: lower-cases `style + ' ' + tone` and tests
the ordered keyword groups by substring inclusion; first match wins, with a
neutral default on no match. -/
def getStyleProfile (style tone : String) : StyleProfile :=
  if strIncludes (combinedLabel style tone) "dark" ||
      strIncludes (combinedLabel style tone) "crime" ||
      strIncludes (combinedLabel style tone) "serious" then
    darkProfile
  else if strIncludes (combinedLabel style tone) "jazz" ||
      strIncludes (combinedLabel style tone) "lo-fi" ||
      strIncludes (combinedLabel style tone) "chill" then
    jazzProfile
  else if strIncludes (combinedLabel style tone) "energetic" ||
      strIncludes (combinedLabel style tone) "upbeat" ||
      strIncludes (combinedLabel style tone) "pop" then
    energeticProfile
  else if strIncludes (combinedLabel style tone) "techno" ||
      strIncludes (combinedLabel style tone) "electronic" ||
      strIncludes (combinedLabel style tone) "cyber" then
    technoProfile
  else
    defaultProfile

-- ─── Randomness oracle ───────────────────────────────────────────────────────

/-- Injected `Math.random()` oracle for `playJingle` and
`generateWaveformData`: one field per random draw site in the source, indexed
by the loop position (bar, beat, chord-voice index, sample index) at which the
draw is performed. -/
structure RandSrc where
  melodyEmit : ℕ → ℕ → ℚ
  melodyIdx : ℕ → ℕ → ℚ
  melodyDbl : ℕ → ℕ → ℚ
  melodyGain : ℕ → ℕ → ℚ
  padDetune : ℕ → ℕ → ℚ

/-- A well-formed oracle only yields draws in `[0, 1)`, as `Math.random`
does. -/
def RandSrc.WF (r : RandSrc) : Prop :=
  (∀ bar beat, 0 ≤ r.melodyEmit bar beat ∧ r.melodyEmit bar beat < 1) ∧
  (∀ bar beat, 0 ≤ r.melodyIdx bar beat ∧ r.melodyIdx bar beat < 1) ∧
  (∀ bar beat, 0 ≤ r.melodyDbl bar beat ∧ r.melodyDbl bar beat < 1) ∧
  (∀ bar beat, 0 ≤ r.melodyGain bar beat ∧ r.melodyGain bar beat < 1) ∧
  (∀ bar j, 0 ≤ r.padDetune bar j ∧ r.padDetune bar j < 1)

/-- The oracle whose every draw is `0`. -/
def zeroRand : RandSrc :=
  { melodyEmit := fun _ _ => 0, melodyIdx := fun _ _ => 0, melodyDbl := fun _ _ => 0
    melodyGain := fun _ _ => 0, padDetune := fun _ _ => 0 }

/-- The oracle whose every draw is `1/2`. -/
def halfRand : RandSrc :=
  { melodyEmit := fun _ _ => 1/2, melodyIdx := fun _ _ => 1/2, melodyDbl := fun _ _ => 1/2
    melodyGain := fun _ _ => 1/2, padDetune := fun _ _ => 1/2 }

-- ─── Arrangement engine (`playJingle`, lines 216–307) ───────────────────────

/-- `beatDuration = 60 / bpm`. -/
def beatDurationOf (bpm : ℚ) : ℚ := 60 / bpm

/-- `bars = Math.floor(durationSeconds / (beatDuration * 4))`; a negative
floor (never produced by meaningful inputs) runs the `for` loops zero times,
hence `Int.toNat`. -/
def barCountOf (bpm durationSeconds : ℚ) : ℕ :=
  (⌊durationSeconds / (beatDurationOf bpm * 4)⌋).toNat

/-- The melody notes emitted for one bar (source lines 246–261): per beat,
with the emit draw under `0.7`, a uniformly drawn scale degree at the beat
start, duration `beatDuration * (2 or 1) * 0.9`, lead waveform, jittered
gain. -/
def melodyNotesForBar (p : StyleProfile) (r : RandSrc) (bpm : ℚ) (bar : ℕ) :
    List NoteEvent :=
  (List.range 4).filterMap fun beat =>
    if r.melodyEmit bar beat < 7/10 then
      some { time := (bar : ℚ) * beatDurationOf bpm * 4 + (beat : ℚ) * beatDurationOf bpm
             freq := p.scale.getD (⌊r.melodyIdx bar beat * p.scale.length⌋).toNat 0
             duration := beatDurationOf bpm *
               (if r.melodyDbl bar beat < 3/10 then 2 else 1) * (9/10)
             wave := p.wave
             gain := 18/100 + r.melodyGain bar beat * (6/100)
             detune := none }
    else none

/-- All melody notes: the bar loop. -/
def melodyNotes (p : StyleProfile) (r : RandSrc) (bpm durationSeconds : ℚ) :
    List NoteEvent :=
  (List.range (barCountOf bpm durationSeconds)).flatMap (melodyNotesForBar p r bpm)

/-- The fixed bass scale-degree pattern (root-third-root-fifth). -/
def bassPattern : List ℕ := [0, 2, 0, 3]

/-- The bass notes emitted for one bar (source lines 264–278): every beat, one
octave down (`bassScale = scale.map(f => f / 2)`), pattern index wrapped
modulo the scale length, duration `0.85 ×` beat, bass waveform, gain 0.22. -/
def bassNotesForBar (p : StyleProfile) (bpm : ℚ) (bar : ℕ) : List NoteEvent :=
  (List.range 4).map fun beat : ℕ =>
    { time := (bar : ℚ) * beatDurationOf bpm * 4 + (beat : ℚ) * beatDurationOf bpm
      freq := (p.scale.map (· / 2)).getD
        (bassPattern.getD beat 0 % (p.scale.map (· / 2)).length) 0
      duration := beatDurationOf bpm * (85/100)
      wave := p.bassWave
      gain := 22/100
      detune := none }

/-- All bass notes: the bar loop. -/
def bassNotes (p : StyleProfile) (bpm durationSeconds : ℚ) : List NoteEvent :=
  (List.range (barCountOf bpm durationSeconds)).flatMap (bassNotesForBar p bpm)

/-- The chord-pad notes emitted for one bar (source lines 281–294): the
`forEach` over the literal array `[chordRoot, chordRoot * 1.25,
chordRoot * 1.5]` unrolled — three voices at the bar start, sine wave, gain
0.06, duration `3.8 ×` beat, with one fresh `Math.random() * 6 - 3` detune
draw per voice (oracle indices 0, 1, 2). -/
def padNotesForBar (p : StyleProfile) (r : RandSrc) (bpm : ℚ) (bar : ℕ) :
    List NoteEvent :=
  [{ time := (bar : ℚ) * beatDurationOf bpm * 4
     freq := p.scale.getD 0 0
     duration := beatDurationOf bpm * (19/5)
     wave := .sine
     gain := 6/100
     detune := some (r.padDetune bar 0 * 6 - 3) },
   { time := (bar : ℚ) * beatDurationOf bpm * 4
     freq := p.scale.getD 0 0 * (5/4)
     duration := beatDurationOf bpm * (19/5)
     wave := .sine
     gain := 6/100
     detune := some (r.padDetune bar 1 * 6 - 3) },
   { time := (bar : ℚ) * beatDurationOf bpm * 4
     freq := p.scale.getD 0 0 * (3/2)
     duration := beatDurationOf bpm * (19/5)
     wave := .sine
     gain := 6/100
     detune := some (r.padDetune bar 2 * 6 - 3) }]

/-- All pad notes: the bar loop. -/
def padNotes (p : StyleProfile) (r : RandSrc) (bpm durationSeconds : ℚ) :
    List NoteEvent :=
  (List.range (barCountOf bpm durationSeconds)).flatMap (padNotesForBar p r bpm)

/-- Every pitched `NoteEvent` scheduled by `playJingle` (melody, bass, pad). -/
def arrangeNotes (p : StyleProfile) (r : RandSrc) (bpm durationSeconds : ℚ) :
    List NoteEvent :=
  melodyNotes p r bpm durationSeconds ++ bassNotes p bpm durationSeconds ++
    padNotes p r bpm durationSeconds

/-- The percussion triggers emitted for one bar (source lines 297–307):
kicks on beats 1 and 3, snares on beats 2 and 4, eight hi-hats on the
eighth-note subdivisions with only the eighth (`i === 7`) open. -/
def drumsForBar (bpm : ℚ) (bar : ℕ) : List PercussionTrigger :=
  ([0, 2].map fun b : ℕ =>
    { kind := .kick
      time := (bar : ℚ) * beatDurationOf bpm * 4 + (b : ℚ) * beatDurationOf bpm }) ++
  ([1, 3].map fun b : ℕ =>
    { kind := .snare
      time := (bar : ℚ) * beatDurationOf bpm * 4 + (b : ℚ) * beatDurationOf bpm }) ++
  ((List.range 8).map fun i =>
    { kind := .hihat (i == 7)
      time := (bar : ℚ) * beatDurationOf bpm * 4 + (i : ℚ) * beatDurationOf bpm * (1/2) })

/-- All percussion triggers: the bar loop. -/
def arrangeDrums (bpm durationSeconds : ℚ) : List PercussionTrigger :=
  (List.range (barCountOf bpm durationSeconds)).flatMap (drumsForBar bpm)

-- ─── Playback controller state (`activeCtx`, `stopAudio`, `playJingle`) ─────

/-- The process-wide playback state: the `activeCtx` module variable plus the
set (modelled as a list) of output contexts that have been created and not yet
closed, and a counter supplying fresh context identities. -/
structure AudioState where
  activeCtx : Option ℕ
  openCtxs : List ℕ
  nextCtx : ℕ
  deriving DecidableEq, Repr

/-- The initial state: no context has ever been created. -/
def initialAudioState : AudioState :=
  { activeCtx := none, openCtxs := [], nextCtx := 0 }

/-- `stopAudio()` (source lines 197–202): if a context is active, close it and
clear the reference; otherwise do nothing. -/
def stopAudio (s : AudioState) : AudioState :=
  match s.activeCtx with
  | none => s
  | some c => { s with activeCtx := none, openCtxs := s.openCtxs.erase c }

/-- The start of `playJingle` (source lines 211–214): `stopAudio()` first,
then create a fresh context and install it as the active one.  Returns the new
state and the created context's identity (captured by the session's closure). -/
def playStart (s : AudioState) : AudioState × ℕ :=
  let s' := stopAudio s
  (⟨some s'.nextCtx, s'.nextCtx :: s'.openCtxs, s'.nextCtx + 1⟩, s'.nextCtx)

/-- The end-of-session timeout body (source lines 330–336): runs with the
session's captured context `c`; tears down only if `activeCtx === ctx` still
holds for this session. -/
def sessionTimeout (c : ℕ) (s : AudioState) : AudioState :=
  if s.activeCtx = some c then
    { s with activeCtx := none, openCtxs := s.openCtxs.erase c }
  else s

/-- The events the shared playback state reacts to: a `playJingle` call, a
session's `totalDuration + 200ms` timeout firing (for any captured context,
including stale ones), and a `stopAudio` call. -/
inductive AudioEvent where
  | playEv
  | timeoutEv (c : ℕ)
  | stopEv
  deriving DecidableEq, Repr

/-- One step of the playback state machine. -/
def stepAudio (s : AudioState) : AudioEvent → AudioState
  | .playEv => (playStart s).1
  | .timeoutEv c => sessionTimeout c s
  | .stopEv => stopAudio s

/-- The state after an arbitrary event history from the initial state. -/
def runAudio (evs : List AudioEvent) : AudioState :=
  evs.foldl stepAudio initialAudioState

-- ─── Waveform preview (`generateWaveformData`, lines 342–354) ───────────────

/-- `generateWaveformData(bpm, bars)`, with `Math.sin` and `Math.PI` injected
as parameters (`sinQ`, `piQ`) and the per-sample `Math.random()` draw injected
as `rand` — the claim under scrutiny (count and clamping bounds) holds for
every interpretation of them. -/
def generateWaveformData (sinQ : ℚ → ℚ) (piQ : ℚ) (rand : ℕ → ℚ) (bpm : ℚ)
    (bars : ℕ) : List ℚ :=
  (List.range bars).map fun i : ℕ =>
    min 1 (max (8/100)
      |sinQ (((i : ℚ) / bars) * piQ * 2 * (bpm / 60) * (7/10)) * (5/10) +
        sinQ (((i : ℚ) / bars) * piQ * 2 * (bpm / 60) * (13/10)) * (3/10) +
        rand i * (2/10)|)

-- ─── Upstream tempo clamp (`generateJingle`, `gemini.ts` line 145) ──────────

/-- The JSON value found at `parsed.bpm`: absent, present but non-numeric
(`Number(·)` yields `NaN`), or a number. -/
inductive JSBpm where
  | missing
  | nonNumeric
  | num (q : ℚ)
  deriving DecidableEq, Repr

/-- `Number(parsed.bpm)` as a partial value: `none` stands for `NaN`. -/
def bpmNumber : JSBpm → Option ℚ
  | .missing => none
  | .nonNumeric => none
  | .num q => some q

/-- JavaScript `Math.round`: half-way cases round toward `+∞`. -/
def jsRound (q : ℚ) : ℤ := ⌊q + 1/2⌋

/-- `Math.max(60, Math.min(180, Math.round(Number(parsed.bpm) || 120)))`:
the `|| 120` fallback replaces `NaN` (absent or non-numeric input) and `0` by
`120` before rounding and clamping.  The result is an integer by construction
(`Math.round`), modelled by the return type `ℤ`. -/
def clampBpm (v : JSBpm) : ℤ :=
  let x : ℚ := match bpmNumber v with
    | none => 120
    | some q => if q = 0 then 120 else q
  max 60 (min 180 (jsRound x))

-- ─── Auxiliary definitions for the statements ───────────────────────────────

/-- Predicate: the trigger is a kick. -/
def isKick (t : PercussionTrigger) : Bool := t.kind == .kick

/-- Predicate: the trigger is a snare. -/
def isSnare (t : PercussionTrigger) : Bool := t.kind == .snare

/-- Predicate: the trigger is a hi-hat (open or closed). -/
def isHihat (t : PercussionTrigger) : Bool :=
  match t.kind with
  | .hihat _ => true
  | _ => false

/-- Predicate: the trigger is an open hi-hat. -/
def isOpenHihat (t : PercussionTrigger) : Bool := t.kind == DrumKind.hihat true

/-- Predicate: the trigger is a closed hi-hat. -/
def isClosedHihat (t : PercussionTrigger) : Bool := t.kind == DrumKind.hihat false

/-- A default `NoteEvent` used only as the `List.getD` fallback in
statements. -/
def dummyNote : NoteEvent :=
  { time := 0, freq := 0, duration := 0, wave := .sine, gain := 0, detune := none }

/-- The single-live-context invariant: the open-context list is exactly the
active context (or empty when none is active). -/
def AudioInv (s : AudioState) : Prop :=
  (s.activeCtx = none → s.openCtxs = []) ∧
  (∀ c, s.activeCtx = some c → s.openCtxs = [c])

-- ─── Helper lemmas ──────────────────────────────────────────────────────────

/-- `getStyleProfile` always returns one of the five fixed profiles. -/
theorem getStyleProfile_cases (style tone : String) :
    getStyleProfile style tone = darkProfile ∨
    getStyleProfile style tone = jazzProfile ∨
    getStyleProfile style tone = energeticProfile ∨
    getStyleProfile style tone = technoProfile ∨
    getStyleProfile style tone = defaultProfile := by
  unfold getStyleProfile
  split_ifs <;> simp

/-- Every frequency in every resolved scale is positive. -/
theorem styleProfile_scale_pos (style tone : String) :
    ∀ f ∈ (getStyleProfile style tone).scale, 0 < f := by
  rcases getStyleProfile_cases style tone with h | h | h | h | h <;>
    rw [h] <;>
    simp [darkProfile, jazzProfile, energeticProfile, technoProfile, defaultProfile,
      freqC4, freqD4, freqE4, freqF4, freqG4, freqA4, freqB4, freqC5] <;>
    norm_num

/-- Every resolved scale has at least five entries. -/
theorem styleProfile_scale_len (style tone : String) :
    5 ≤ (getStyleProfile style tone).scale.length := by
  rcases getStyleProfile_cases style tone with h | h | h | h | h <;> rw [h] <;>
    simp [darkProfile, jazzProfile, energeticProfile, technoProfile, defaultProfile]

/-- Every resolved reverb amount lies in `[0, 1]`. -/
theorem styleProfile_reverb_bounds (style tone : String) :
    0 ≤ (getStyleProfile style tone).reverbAmount ∧
      (getStyleProfile style tone).reverbAmount ≤ 1 := by
  rcases getStyleProfile_cases style tone with h | h | h | h | h <;> rw [h] <;>
    constructor <;>
    norm_num [darkProfile, jazzProfile, energeticProfile, technoProfile, defaultProfile]

-- ─── Claim theorems ─────────────────────────────────────────────────────────

/-- C5: the style profile resolver is a total pure function over all string
pairs matching case-insensitively against an ordered keyword priority list;
every returned profile has a scale of at least 5 frequencies and a reverb
amount in `[0, 1]`; input matching none of the twelve keywords returns exactly
the default profile; `resolve("Dark Industrial Techno", "Serious")` returns
the "dark" group's profile with reverb amount `0.6`, even though `"techno"`
also occurs in the combined label. -/
theorem C5_styleProfile_resolver :
    (∀ style tone, 5 ≤ (getStyleProfile style tone).scale.length ∧
      0 ≤ (getStyleProfile style tone).reverbAmount ∧
      (getStyleProfile style tone).reverbAmount ≤ 1) ∧
    (∀ style tone,
      strIncludes (combinedLabel style tone) "dark" = false →
      strIncludes (combinedLabel style tone) "crime" = false →
      strIncludes (combinedLabel style tone) "serious" = false →
      strIncludes (combinedLabel style tone) "jazz" = false →
      strIncludes (combinedLabel style tone) "lo-fi" = false →
      strIncludes (combinedLabel style tone) "chill" = false →
      strIncludes (combinedLabel style tone) "energetic" = false →
      strIncludes (combinedLabel style tone) "upbeat" = false →
      strIncludes (combinedLabel style tone) "pop" = false →
      strIncludes (combinedLabel style tone) "techno" = false →
      strIncludes (combinedLabel style tone) "electronic" = false →
      strIncludes (combinedLabel style tone) "cyber" = false →
      getStyleProfile style tone = defaultProfile) ∧
    (getStyleProfile "Dark Industrial Techno" "Serious" = darkProfile ∧
      darkProfile.reverbAmount = 6/10 ∧
      strIncludes (combinedLabel "Dark Industrial Techno" "Serious") "techno" = true) := by
  refine ⟨fun style tone => ⟨styleProfile_scale_len style tone,
      (styleProfile_reverb_bounds style tone).1,
      (styleProfile_reverb_bounds style tone).2⟩, ?_, ?_, ?_, ?_⟩
  · intro style tone h1 h2 h3 h4 h5 h6 h7 h8 h9 h10 h11 h12
    unfold getStyleProfile
    rw [h1, h2, h3, h4, h5, h6, h7, h8, h9, h10, h11, h12]
    rfl
  · unfold getStyleProfile
    rw [show strIncludes (combinedLabel "Dark Industrial Techno" "Serious") "dark" = true
      from by decide]
    rfl
  · norm_num [darkProfile]
  · decide

/-- C5 witness: the theorem applied with its inner hypotheses discharged at
`("Totally Unmatched", "Nothing")`. -/
theorem C5_styleProfile_resolver_witness :
    5 ≤ (getStyleProfile "Totally Unmatched" "Nothing").scale.length ∧
    getStyleProfile "Totally Unmatched" "Nothing" = defaultProfile :=
  ⟨(C5_styleProfile_resolver.1 "Totally Unmatched" "Nothing").1,
   C5_styleProfile_resolver.2.1 "Totally Unmatched" "Nothing"
     (by decide) (by decide) (by decide) (by decide) (by decide) (by decide)
     (by decide) (by decide) (by decide) (by decide) (by decide) (by decide)⟩

/-- C6: `stopAudio` is idempotent (a second call is a no-op), always leaves no
active session, and is a defined no-op when no session is active. -/
theorem C6_stop_idempotent :
    (∀ s : AudioState, stopAudio (stopAudio s) = stopAudio s) ∧
    (∀ s : AudioState, (stopAudio s).activeCtx = none) ∧
    (∀ s : AudioState, s.activeCtx = none → stopAudio s = s) := by
  refine ⟨?_, ?_, ?_⟩
  · intro s
    cases h : s.activeCtx <;> simp [stopAudio, h]
  · intro s
    cases h : s.activeCtx <;> simp [stopAudio, h]
  · intro s h
    simp [stopAudio, h]

/-- C6 witness: the theorem applied at the initial (idle) state. -/
theorem C6_stop_idempotent_witness :
    stopAudio (stopAudio initialAudioState) = stopAudio initialAudioState ∧
    stopAudio initialAudioState = initialAudioState :=
  ⟨C6_stop_idempotent.1 initialAudioState,
   C6_stop_idempotent.2.2 initialAudioState rfl⟩

/-- C8: the waveform preview returns exactly `n` values, each clamped into
`[0.08, 1.0]`, for every tempo, sample count, and every interpretation of the
injected `Math.sin`, `Math.PI`, and `Math.random`. -/
theorem C8_waveform_preview :
    ∀ (sinQ : ℚ → ℚ) (piQ : ℚ) (rand : ℕ → ℚ) (bpm : ℚ) (n : ℕ),
      (generateWaveformData sinQ piQ rand bpm n).length = n ∧
      ∀ v ∈ generateWaveformData sinQ piQ rand bpm n, 8/100 ≤ v ∧ v ≤ 1 := by
  intro sinQ piQ rand bpm n
  constructor
  · simp [generateWaveformData]
  · intro v hv
    simp only [generateWaveformData, List.mem_map] at hv
    obtain ⟨i, -, rfl⟩ := hv
    exact ⟨le_min (by norm_num) (le_max_left _ _), min_le_left _ _⟩

/-- C10: the bpm delivered by `generateJingle` is always an integer in
`[60, 180]`: the model value is rounded and clamped, and a missing or
non-numeric value is replaced by `120`. -/
theorem C10_bpm_clamp :
    (∀ v : JSBpm, 60 ≤ clampBpm v ∧ clampBpm v ≤ 180) ∧
    (∀ v : JSBpm, bpmNumber v = none → clampBpm v = 120) ∧
    (∀ q : ℚ, q ≠ 0 → clampBpm (.num q) = max 60 (min 180 (jsRound q))) := by
  refine ⟨?_, ?_, ?_⟩
  · intro v
    exact ⟨le_max_left _ _, max_le (by norm_num) (min_le_left _ _)⟩
  · intro v hv
    have h120 : jsRound 120 = 120 := by
      unfold jsRound
      rw [Int.floor_eq_iff] <;> norm_num
    simp [clampBpm, hv, h120]
  · intro q hq
    simp [clampBpm, bpmNumber, hq]

/-- C10 witness: the theorem applied at a missing bpm and at the concrete
numeric value `300` (which clamps to the upper bound). -/
theorem C10_bpm_clamp_witness :
    60 ≤ clampBpm JSBpm.missing ∧ clampBpm JSBpm.missing = 120 ∧
    clampBpm (JSBpm.num 300) = max 60 (min 180 (jsRound 300)) :=
  ⟨(C10_bpm_clamp.1 JSBpm.missing).1,
   C10_bpm_clamp.2.1 JSBpm.missing rfl,
   C10_bpm_clamp.2.2 300 (by norm_num)⟩

/-- `getD` after halving commutes with halving after `getD` (the default `0`
halves to itself). -/
theorem getD_map_half (l : List ℚ) (i : ℕ) :
    (l.map (· / 2)).getD i 0 = l.getD i 0 / 2 := by
  induction l generalizing i with
  | nil => simp
  | cons a t ih =>
    cases i with
    | zero => simp
    | succ j => simpa using ih j

/-- `Option.getD` after halving the content commutes with halving the result
(default `0`). -/
theorem optionMap_half_getD (o : Option ℚ) :
    (o.map fun x => x / 2).getD 0 = o.getD 0 / 2 := by
  cases o <;> simp

/-- C4: every bar's bass line is exactly 4 notes, one per beat, at
`scale[pattern[beat] % scaleLength] / 2` with `pattern = [0, 2, 0, 3]`, the
profile's bass waveform, and duration `0.85 ×` the beat length. -/
theorem C4_bass_line :
    ∀ (p : StyleProfile) (bpm : ℚ) (bar : ℕ),
      (bassNotesForBar p bpm bar).length = 4 ∧
      bassPattern = [0, 2, 0, 3] ∧
      ∀ beat : ℕ, beat < 4 →
        (bassNotesForBar p bpm bar).getD beat dummyNote =
          { time := (bar : ℚ) * beatDurationOf bpm * 4 + (beat : ℚ) * beatDurationOf bpm
            freq := p.scale.getD (bassPattern.getD beat 0 % p.scale.length) 0 / 2
            duration := beatDurationOf bpm * (85/100)
            wave := p.bassWave
            gain := 22/100
            detune := none } := by
  intro p bpm bar
  refine ⟨by simp [bassNotesForBar], rfl, ?_⟩
  intro beat hbeat
  interval_cases beat <;>
    simp [bassNotesForBar, List.range_succ, getD_map_half, bassPattern,
      optionMap_half_getD]

/-- C4 witness: the theorem applied at the default profile, tempo 120, bar 0,
beat 1 (the "third" step of the pattern). -/
theorem C4_bass_line_witness :
    (bassNotesForBar defaultProfile 120 0).length = 4 ∧
    (bassNotesForBar defaultProfile 120 0).getD 1 dummyNote =
      { time := ((0 : ℕ) : ℚ) * beatDurationOf 120 * 4 + ((1 : ℕ) : ℚ) * beatDurationOf 120
        freq := defaultProfile.scale.getD
          (bassPattern.getD 1 0 % defaultProfile.scale.length) 0 / 2
        duration := beatDurationOf 120 * (85/100)
        wave := defaultProfile.bassWave
        gain := 22/100
        detune := none } :=
  ⟨(C4_bass_line defaultProfile 120 0).1,
   (C4_bass_line defaultProfile 120 0).2.2 1 (by norm_num)⟩

/-- C9: every bar's chord pad is exactly three simultaneous notes at the bar
start with frequencies `root`, `root × 1.25`, `root × 1.5`, each with an
independent random detune in `[-3, +3]` cents, gain `0.06`, duration `3.8`
beats, and a sine waveform regardless of the profile's waveforms. -/
theorem C9_chord_pad :
    ∀ (p : StyleProfile) (r : RandSrc) (bpm : ℚ) (bar : ℕ), r.WF →
      (padNotesForBar p r bpm bar).length = 3 ∧
      (padNotesForBar p r bpm bar).map NoteEvent.freq =
        [p.scale.getD 0 0, p.scale.getD 0 0 * (5/4), p.scale.getD 0 0 * (3/2)] ∧
      ∀ ev ∈ padNotesForBar p r bpm bar,
        ev.time = (bar : ℚ) * beatDurationOf bpm * 4 ∧
        ev.duration = beatDurationOf bpm * (19/5) ∧
        ev.wave = .sine ∧
        ev.gain = 6/100 ∧
        ∃ d, ev.detune = some d ∧ -3 ≤ d ∧ d ≤ 3 := by
  intro p r bpm bar hr
  refine ⟨rfl, rfl, ?_⟩
  intro ev hev
  have hd : ∀ j : ℕ, -3 ≤ r.padDetune bar j * 6 - 3 ∧ r.padDetune bar j * 6 - 3 ≤ 3 := by
    intro j
    obtain ⟨h0, h1⟩ := hr.2.2.2.2 bar j
    constructor <;> nlinarith
  simp only [padNotesForBar, List.mem_cons, List.not_mem_nil, or_false] at hev
  rcases hev with rfl | rfl | rfl
  · exact ⟨rfl, rfl, rfl, rfl, _, rfl, (hd 0).1, (hd 0).2⟩
  · exact ⟨rfl, rfl, rfl, rfl, _, rfl, (hd 1).1, (hd 1).2⟩
  · exact ⟨rfl, rfl, rfl, rfl, _, rfl, (hd 2).1, (hd 2).2⟩

/-- C9 witness: the theorem applied at the dark profile, the all-halves
oracle, tempo 120, bar 2. -/
theorem C9_chord_pad_witness :
    (padNotesForBar darkProfile halfRand 120 2).length = 3 ∧
    (padNotesForBar darkProfile halfRand 120 2).map NoteEvent.freq =
      [darkProfile.scale.getD 0 0, darkProfile.scale.getD 0 0 * (5/4),
        darkProfile.scale.getD 0 0 * (3/2)] :=
  ⟨(C9_chord_pad darkProfile halfRand 120 2 (by
      refine ⟨?_, ?_, ?_, ?_, ?_⟩ <;> intro a b <;> constructor <;>
        norm_num [halfRand])).1,
   (C9_chord_pad darkProfile halfRand 120 2 (by
      refine ⟨?_, ?_, ?_, ?_, ?_⟩ <;> intro a b <;> constructor <;>
        norm_num [halfRand])).2.1⟩

/-- Counting over the concatenated per-bar lists multiplies a constant
per-bar count by the number of bars. -/
theorem countP_flatMap_const {α : Type} (f : ℕ → List α) (p : α → Bool) (k n : ℕ)
    (h : ∀ i, (f i).countP p = k) :
    ((List.range n).flatMap f).countP p = n * k := by
  induction n with
  | zero => simp
  | succ m ih =>
    simp [List.range_succ, List.countP_append, ih, h, Nat.succ_mul]

/-- Per-bar drum counts: 2 kicks, 2 snares, 8 hi-hats (7 closed, 1 open). -/
theorem drumsForBar_counts (T : ℚ) (bar : ℕ) :
    (drumsForBar T bar).countP isKick = 2 ∧
    (drumsForBar T bar).countP isSnare = 2 ∧
    (drumsForBar T bar).countP isHihat = 8 ∧
    (drumsForBar T bar).countP isClosedHihat = 7 ∧
    (drumsForBar T bar).countP isOpenHihat = 1 := by
  refine ⟨?_, ?_, ?_, ?_, ?_⟩ <;>
    simp [drumsForBar, isKick, isSnare, isHihat, isClosedHihat, isOpenHihat,
      List.countP_append, List.countP_cons, List.range_succ]

/-- C1: for tempo `T > 0` and duration `D`, `beatDuration = 60 / T`,
`barCount = floor(D / (beatDuration * 4)) = floor(D / (240 / T))`, and every
bar carries exactly 2 kicks on beats 1 and 3, 2 snares on beats 2 and 4, and
8 hi-hats on the eighth-note subdivisions of which exactly the last (index 7)
is open; at `T = 120`, `D = 12` this yields 6 bars with 12 kicks, 12 snares,
and 48 hi-hats in total. -/
theorem C1_drum_grid :
    ∀ (T D : ℚ), 0 < T →
      (beatDurationOf T = 60 / T ∧
        barCountOf T D = (⌊D / (240 / T)⌋).toNat) ∧
      (∀ bar : ℕ,
        ((drumsForBar T bar).filter isKick).map PercussionTrigger.time =
          [(bar : ℚ) * beatDurationOf T * 4,
           (bar : ℚ) * beatDurationOf T * 4 + 2 * beatDurationOf T] ∧
        ((drumsForBar T bar).filter isSnare).map PercussionTrigger.time =
          [(bar : ℚ) * beatDurationOf T * 4 + beatDurationOf T,
           (bar : ℚ) * beatDurationOf T * 4 + 3 * beatDurationOf T] ∧
        ((drumsForBar T bar).filter isHihat).map PercussionTrigger.time =
          [(bar : ℚ) * beatDurationOf T * 4,
           (bar : ℚ) * beatDurationOf T * 4 + beatDurationOf T * (1/2),
           (bar : ℚ) * beatDurationOf T * 4 + 2 * beatDurationOf T * (1/2),
           (bar : ℚ) * beatDurationOf T * 4 + 3 * beatDurationOf T * (1/2),
           (bar : ℚ) * beatDurationOf T * 4 + 4 * beatDurationOf T * (1/2),
           (bar : ℚ) * beatDurationOf T * 4 + 5 * beatDurationOf T * (1/2),
           (bar : ℚ) * beatDurationOf T * 4 + 6 * beatDurationOf T * (1/2),
           (bar : ℚ) * beatDurationOf T * 4 + 7 * beatDurationOf T * (1/2)] ∧
        ((drumsForBar T bar).filter isOpenHihat).map PercussionTrigger.time =
          [(bar : ℚ) * beatDurationOf T * 4 + 7 * beatDurationOf T * (1/2)] ∧
        (drumsForBar T bar).countP isClosedHihat = 7) ∧
      (barCountOf 120 12 = 6 ∧
        (arrangeDrums 120 12).countP isKick = 12 ∧
        (arrangeDrums 120 12).countP isSnare = 12 ∧
        (arrangeDrums 120 12).countP isHihat = 48) := by
  intro T D hT
  have hbars : barCountOf 120 12 = 6 := by
    norm_num [barCountOf, beatDurationOf]
    decide
  refine ⟨⟨rfl, ?_⟩, ?_, hbars, ?_, ?_, ?_⟩
  · unfold barCountOf
    congr 2
    unfold beatDurationOf
    ring_nf
  · intro bar
    refine ⟨?_, ?_, ?_, ?_, (drumsForBar_counts T bar).2.2.2.1⟩ <;>
      simp [drumsForBar, isKick, isSnare, isHihat, isOpenHihat,
        List.filter_append, List.range_succ] <;>
      ring_nf
  · rw [show arrangeDrums 120 12 =
        (List.range (barCountOf 120 12)).flatMap (drumsForBar 120) from rfl, hbars]
    exact countP_flatMap_const _ _ 2 6 fun i => (drumsForBar_counts 120 i).1
  · rw [show arrangeDrums 120 12 =
        (List.range (barCountOf 120 12)).flatMap (drumsForBar 120) from rfl, hbars]
    exact countP_flatMap_const _ _ 2 6 fun i => (drumsForBar_counts 120 i).2.1
  · rw [show arrangeDrums 120 12 =
        (List.range (barCountOf 120 12)).flatMap (drumsForBar 120) from rfl, hbars]
    exact countP_flatMap_const _ _ 8 6 fun i => (drumsForBar_counts 120 i).2.2.1

/-- C1 witness: the theorem applied at tempo 120, duration 12. -/
theorem C1_drum_grid_witness :
    barCountOf 120 12 = (⌊(12 : ℚ) / (240 / 120)⌋).toNat ∧
    (arrangeDrums 120 12).countP isKick = 12 ∧
    (arrangeDrums 120 12).countP isSnare = 12 ∧
    (arrangeDrums 120 12).countP isHihat = 48 :=
  ⟨((C1_drum_grid 120 12 (by norm_num)).1).2,
   ((C1_drum_grid 120 12 (by norm_num)).2.2).2.1,
   ((C1_drum_grid 120 12 (by norm_num)).2.2).2.2.1,
   ((C1_drum_grid 120 12 (by norm_num)).2.2).2.2.2⟩

/-- `Math.floor(Math.random() * scale.length)` is a valid index for a draw in
`[0, 1)` and a nonempty scale. -/
theorem floorIdx_lt (x : ℚ) (n : ℕ) (h0 : 0 ≤ x) (h1 : x < 1) (hn : 0 < n) :
    (⌊x * (n : ℚ)⌋).toNat < n := by
  have hn' : (0 : ℚ) < (n : ℚ) := by exact_mod_cast hn
  have hf : ⌊x * (n : ℚ)⌋ < (n : ℤ) := by
    apply Int.floor_lt.mpr
    push_cast
    nlinarith
  omega

/-- `getD` at an in-range index of a list of positives is positive. -/
theorem getD_pos_of_lt {l : List ℚ} {i : ℕ} (hi : i < l.length)
    (hl : ∀ f ∈ l, 0 < f) : 0 < l.getD i 0 := by
  rw [List.getD_eq_getElem?_getD, List.getElem?_eq_getElem hi]
  exact hl _ (List.getElem_mem hi)

/-- Inversion principle for one bar of melody: every emitted note comes from
a beat whose emit draw passed, and carries exactly the fields the source
builds. -/
theorem mem_melodyNotesForBar {p : StyleProfile} {r : RandSrc} {bpm : ℚ}
    {bar : ℕ} {ev : NoteEvent} (h : ev ∈ melodyNotesForBar p r bpm bar) :
    ∃ beat, beat < 4 ∧ r.melodyEmit bar beat < 7/10 ∧
      ev = { time := (bar : ℚ) * beatDurationOf bpm * 4 + (beat : ℚ) * beatDurationOf bpm
             freq := p.scale.getD (⌊r.melodyIdx bar beat * p.scale.length⌋).toNat 0
             duration := beatDurationOf bpm *
               (if r.melodyDbl bar beat < 3/10 then 2 else 1) * (9/10)
             wave := p.wave
             gain := 18/100 + r.melodyGain bar beat * (6/100)
             detune := none } := by
  unfold melodyNotesForBar at h
  rw [List.mem_filterMap] at h
  obtain ⟨beat, hbeat, hf⟩ := h
  rw [List.mem_range] at hbeat
  by_cases hc : r.melodyEmit bar beat < 7/10
  · rw [if_pos hc] at hf
    exact ⟨beat, hbeat, hc, (Option.some_injective _ hf).symm⟩
  · rw [if_neg hc] at hf
    cases hf

/-- C7: with `barCount = 0` the arrangement is empty (note and drum lists);
for every positive tempo (including out-of-range values such as 200) every
emitted `NoteEvent` has strictly positive frequency and strictly positive
duration, satisfying the Voice Scheduler's precondition. -/
theorem C7_degenerate_and_wellformed :
    ∀ (style tone : String) (r : RandSrc) (bpm D : ℚ), r.WF → 0 < bpm →
      (barCountOf bpm D = 0 →
        arrangeNotes (getStyleProfile style tone) r bpm D = [] ∧
        arrangeDrums bpm D = []) ∧
      (∀ ev ∈ arrangeNotes (getStyleProfile style tone) r bpm D,
        0 < ev.freq ∧ 0 < ev.duration) := by
  intro style tone r bpm D hr hbpm
  have hb : 0 < beatDurationOf bpm := div_pos (by norm_num) hbpm
  have hlen : 0 < (getStyleProfile style tone).scale.length :=
    lt_of_lt_of_le (by norm_num) (styleProfile_scale_len style tone)
  have hpos := styleProfile_scale_pos style tone
  constructor
  · intro h0
    simp [arrangeNotes, melodyNotes, bassNotes, padNotes, arrangeDrums, h0]
  · intro ev hev
    rcases List.mem_append.mp hev with hrest | hpad
    · rcases List.mem_append.mp hrest with hmel | hbass
      · obtain ⟨bar, -, hm⟩ := List.mem_flatMap.mp hmel
        obtain ⟨beat, -, -, rfl⟩ := mem_melodyNotesForBar hm
        constructor
        · exact getD_pos_of_lt
            (floorIdx_lt _ _ ((hr.2.1 bar beat).1) ((hr.2.1 bar beat).2) hlen) hpos
        · dsimp only
          split_ifs <;> positivity
      · obtain ⟨bar, -, hm⟩ := List.mem_flatMap.mp hbass
        unfold bassNotesForBar at hm
        obtain ⟨beat, -, rfl⟩ := List.mem_map.mp hm
        constructor
        · dsimp only
          rw [getD_map_half]
          have hi : bassPattern.getD beat 0 % (getStyleProfile style tone).scale.length <
              (getStyleProfile style tone).scale.length := Nat.mod_lt _ hlen
          rw [List.length_map]
          exact half_pos (getD_pos_of_lt hi hpos)
        · dsimp only
          positivity
    · obtain ⟨bar, -, hm⟩ := List.mem_flatMap.mp hpad
      have hroot : 0 < (getStyleProfile style tone).scale.getD 0 0 :=
        getD_pos_of_lt hlen hpos
      unfold padNotesForBar at hm
      simp only [List.mem_cons, List.not_mem_nil, or_false] at hm
      rcases hm with rfl | rfl | rfl <;> constructor <;> dsimp only <;> positivity

/-- C7 witness: at tempo 1 bpm a 12-second session has zero bars and an empty
arrangement; the hypotheses are discharged at the all-halves oracle. -/
theorem C7_degenerate_and_wellformed_witness :
    arrangeNotes (getStyleProfile "Tech" "Calm") halfRand 1 12 = [] ∧
    arrangeDrums 1 12 = [] :=
  (C7_degenerate_and_wellformed "Tech" "Calm" halfRand 1 12
    (by refine ⟨?_, ?_, ?_, ?_, ?_⟩ <;> intro a b <;> constructor <;>
      norm_num [halfRand])
    (by norm_num)).1
    (by norm_num [barCountOf, beatDurationOf])

/-- `stopAudio` is idempotent (shared helper). -/
theorem stopAudio_idem (s : AudioState) : stopAudio (stopAudio s) = stopAudio s := by
  cases h : s.activeCtx <;> simp [stopAudio, h]

/-- The initial state satisfies the single-live-context invariant. -/
theorem audioInv_initial : AudioInv initialAudioState :=
  ⟨fun _ => rfl, fun c h => by cases h⟩

/-- After `stopAudio`, no context is active and none is open (given the
invariant). -/
theorem audioInv_stop {s : AudioState} (h : AudioInv s) :
    (stopAudio s).activeCtx = none ∧ (stopAudio s).openCtxs = [] := by
  cases hs : s.activeCtx with
  | none =>
    exact ⟨by simp [stopAudio, hs], by simpa [stopAudio, hs] using h.1 hs⟩
  | some c =>
    refine ⟨by simp [stopAudio, hs], ?_⟩
    simp [stopAudio, hs, h.2 c hs]

/-- Every step of the playback state machine preserves the invariant. -/
theorem audioInv_step {s : AudioState} (e : AudioEvent) (h : AudioInv s) :
    AudioInv (stepAudio s e) := by
  cases e with
  | playEv =>
    obtain ⟨-, ho⟩ := audioInv_stop h
    refine ⟨fun hnone => ?_, fun c hc => ?_⟩
    · simp [stepAudio, playStart] at hnone
    · simp only [stepAudio, playStart] at hc ⊢
      rw [ho]
      rw [Option.some_inj] at hc
      rw [hc]
  | timeoutEv c =>
    by_cases hc : s.activeCtx = some c
    · refine ⟨fun _ => ?_, fun d hd => ?_⟩
      · simp [stepAudio, sessionTimeout, hc, h.2 c hc]
      · simp [stepAudio, sessionTimeout, hc] at hd
    · simpa [stepAudio, sessionTimeout, hc] using h
  | stopEv =>
    obtain ⟨ha, ho⟩ := audioInv_stop h
    refine ⟨fun _ => ho, fun c hc => ?_⟩
    exact absurd hc (by simp [stepAudio, ha])

/-- Every reachable playback state satisfies the invariant. -/
theorem audioInv_run (evs : List AudioEvent) : AudioInv (runAudio evs) := by
  suffices h : ∀ s, AudioInv s → AudioInv (evs.foldl stepAudio s) from
    h _ audioInv_initial
  induction evs with
  | nil => exact fun s hs => hs
  | cons e t ih => exact fun s hs => ih _ (audioInv_step e hs)

/-- C2: after any event history, at most one output context is open, every
open context is the active one, a session timeout whose captured context is
no longer the active one changes nothing (identity comparison), and starting
a session behaves identically whether or not the previous session was already
torn down (play tears down first). -/
theorem C2_mutual_exclusion :
    ∀ evs : List AudioEvent,
      (runAudio evs).openCtxs.length ≤ 1 ∧
      (∀ c, c ∈ (runAudio evs).openCtxs → (runAudio evs).activeCtx = some c) ∧
      (∀ c, (runAudio evs).activeCtx ≠ some c →
        sessionTimeout c (runAudio evs) = runAudio evs) ∧
      (∀ s : AudioState, playStart s = playStart (stopAudio s)) := by
  intro evs
  have hinv := audioInv_run evs
  refine ⟨?_, ?_, ?_, ?_⟩
  · cases hs : (runAudio evs).activeCtx with
    | none => simp [hinv.1 hs]
    | some c => simp [hinv.2 c hs]
  · intro c hc
    cases hs : (runAudio evs).activeCtx with
    | none => rw [hinv.1 hs] at hc; cases hc
    | some d =>
      rw [hinv.2 d hs] at hc
      simp only [List.mem_cons, List.not_mem_nil, or_false] at hc
      rw [hc]
  · intro c hne
    simp [sessionTimeout, hne]
  · intro s
    unfold playStart
    rw [stopAudio_idem]

/-- C2 witness: two back-to-back `play` calls leave one open context, and the
superseded first session's timeout (captured context 0) is a no-op. -/
theorem C2_mutual_exclusion_witness :
    (runAudio [AudioEvent.playEv, AudioEvent.playEv]).openCtxs.length ≤ 1 ∧
    sessionTimeout 0 (runAudio [AudioEvent.playEv, AudioEvent.playEv]) =
      runAudio [AudioEvent.playEv, AudioEvent.playEv] :=
  ⟨(C2_mutual_exclusion [AudioEvent.playEv, AudioEvent.playEv]).1,
   (C2_mutual_exclusion [AudioEvent.playEv, AudioEvent.playEv]).2.2.1 0 (by decide)⟩

/-- C3 (amended): per bar and beat the melody emits a note exactly when the
emit draw is under `0.7`; the note uses the floor-scaled uniform scale degree
and the profile's lead waveform, and its duration is `0.9 ×` the beat length,
doubled to `1.8 ×` when the doubling draw is under `0.3` — with no cap at the
bar boundary. -/
theorem C3_melody_per_beat :
    ∀ (p : StyleProfile) (r : RandSrc) (bpm : ℚ) (bar beat : ℕ),
      0 < bpm → beat < 4 →
      (r.melodyEmit bar beat < 7/10 ↔
        ∃ ev ∈ melodyNotesForBar p r bpm bar,
          ev.time = (bar : ℚ) * beatDurationOf bpm * 4 + (beat : ℚ) * beatDurationOf bpm) ∧
      (∀ ev ∈ melodyNotesForBar p r bpm bar,
        ev.time = (bar : ℚ) * beatDurationOf bpm * 4 + (beat : ℚ) * beatDurationOf bpm →
          ev.freq = p.scale.getD (⌊r.melodyIdx bar beat * p.scale.length⌋).toNat 0 ∧
          ev.wave = p.wave ∧
          ev.duration = beatDurationOf bpm *
            (if r.melodyDbl bar beat < 3/10 then 2 else 1) * (9/10) ∧
          ev.gain = 18/100 + r.melodyGain bar beat * (6/100)) := by
  intro p r bpm bar beat hbpm hbeat
  have hb : beatDurationOf bpm ≠ 0 := ne_of_gt (div_pos (by norm_num) hbpm)
  have key : ∀ b b' : ℕ,
      (bar : ℚ) * beatDurationOf bpm * 4 + (b : ℚ) * beatDurationOf bpm =
        (bar : ℚ) * beatDurationOf bpm * 4 + (b' : ℚ) * beatDurationOf bpm → b = b' := by
    intro b b' h
    have h2 : (b : ℚ) * beatDurationOf bpm = (b' : ℚ) * beatDurationOf bpm := by
      linarith
    exact_mod_cast mul_right_cancel₀ hb h2
  constructor
  · constructor
    · intro hc
      refine ⟨{ time := (bar : ℚ) * beatDurationOf bpm * 4 + (beat : ℚ) * beatDurationOf bpm
                freq := p.scale.getD (⌊r.melodyIdx bar beat * p.scale.length⌋).toNat 0
                duration := beatDurationOf bpm *
                  (if r.melodyDbl bar beat < 3/10 then 2 else 1) * (9/10)
                wave := p.wave
                gain := 18/100 + r.melodyGain bar beat * (6/100)
                detune := none }, ?_, rfl⟩
      unfold melodyNotesForBar
      rw [List.mem_filterMap]
      exact ⟨beat, List.mem_range.mpr hbeat, if_pos hc⟩
    · rintro ⟨ev, hm, ht⟩
      obtain ⟨b', -, hc', rfl⟩ := mem_melodyNotesForBar hm
      rw [key b' beat ht] at hc'
      exact hc'
  · intro ev hm ht
    obtain ⟨b', -, hc', rfl⟩ := mem_melodyNotesForBar hm
    rw [key b' beat ht]
    exact ⟨rfl, rfl, rfl, rfl⟩

/-- C3 (amended) witness: at tempo 120, bar 0, beat 2, the all-zeros oracle
emits a note at the beat's start time. -/
theorem C3_melody_per_beat_witness :
    ∃ ev ∈ melodyNotesForBar defaultProfile zeroRand 120 0,
      ev.time = ((0 : ℕ) : ℚ) * beatDurationOf 120 * 4 + ((2 : ℕ) : ℚ) * beatDurationOf 120 :=
  (C3_melody_per_beat defaultProfile zeroRand 120 0 2 (by norm_num)
    (by norm_num)).1.mp (by norm_num [zeroRand])

/-- C3 counterexample: at tempo 120 (beat length `1/2`), bar 0, the all-zeros
oracle emits on beat 4 a doubled note of duration `0.9` — not the beat length
`0.5` nor its double `1.0` — which runs past the bar end at `2.0`, so the
stated "duration never exceeds the remaining portion of the bar" is false. -/
theorem C3_melody_counterexample :
    ∃ ev ∈ melodyNotesForBar defaultProfile zeroRand 120 0,
      ev.time = 3/2 ∧ ev.duration = 9/10 ∧
      ((0 : ℕ) : ℚ) * beatDurationOf 120 * 4 + 4 * beatDurationOf 120 <
        ev.time + ev.duration ∧
      ev.duration ≠ beatDurationOf 120 ∧
      ev.duration ≠ 2 * beatDurationOf 120 := by
  refine ⟨{ time := 3/2, freq := freqC4, duration := 9/10, wave := WaveType.sine,
            gain := 18/100, detune := none }, ?_, rfl, rfl, ?_, ?_, ?_⟩
  · unfold melodyNotesForBar
    rw [List.mem_filterMap]
    refine ⟨3, by decide, ?_⟩
    rw [if_pos (by norm_num [zeroRand])]
    simp only [zeroRand, defaultProfile, beatDurationOf, Option.some_inj]
    norm_num
  · norm_num [beatDurationOf]
  · norm_num [beatDurationOf]
  · norm_num [beatDurationOf]
